import Mathlib

/-!
Shallow embedding of the build orchestrator in src/python/rapidgzip/setup.py.

Python strings are modelled as Lean String; suffix tests (str.endswith) are
modelled on the underlying character list via List.isSuffixOf, and
str.rsplit with one split at the last dot is modelled by taking the
characters after the last dot (reverse / takeWhile / reverse).  Environment
inputs (platform.machine(), platform.system(), sys.platform, shutil.which,
os.listdir, the RAPIDGZIP_BUILD_* variables) are explicit parameters.
The host compiler primitives (compiler.compile, object_filenames, spawn,
shutil.copy) are external collaborators; their invocations are recorded as
events so that ordering and frame effects can be stated.
-/

namespace RapidgzipSetup

/-! ## Dependency Resolver (setup.py lines 37-60) -/

/-- Valid values for a RAPIDGZIP_BUILD_* dependency option, setup.py line 47. -/
def validValues : List String := ["enable", "disable", "system"]

/-- Models getDependencyOption (setup.py lines 44-50).  The request is the
value of the environment variable when set (None when absent, defaulting to
enable).  A value outside validValues is reported via the returned warning
list and coerced to disable: the function returns the option when it is
system or enable and disable otherwise. -/
def getDependencyOption (key : String) (request : Option String) : String × List String :=
  let option := request.getD "enable"
  let warnings :=
    if option ∈ validValues then []
    else ["Unrecognized option for rapidgzip dependency: " ++ key ++ "=" ++ option]
  (if option = "system" ∨ option = "enable" then option else "disable", warnings)

/-- Models the resolution of the cxxopts dependency (setup.py lines 53 and
58-60): the result of getDependencyOption for CXXOPTS, with a resolved
disable overridden to enable together with a recorded warning. -/
def withCxxopts (request : Option String) : String × List String :=
  let r := getDependencyOption "CXXOPTS" request
  if r.1 = "disable" then
    ("enable", r.2 ++ ["[Warning] Cxxopts can not be disabled! Will enable it."])
  else r

/-- Models the architecture variable (setup.py lines 65-71) as a function of
platform.machine(). -/
def architecture (machine : String) : Option String :=
  if machine ∈ ["x86_64", "AMD64"] then some "x86_64"
  else if machine ∈ ["aarch64", "arm64"] then some "aarch64"
  else none

/-- Models canBuildIsal (setup.py lines 66-78) as a function of
platform.machine(), platform.system() and whether shutil.which finds nasm:
on the x86_64 family it requires nasm, on the aarch64 family it is true
(GCC is used as assembler), elsewhere false; Darwin forces it to false. -/
def canBuildIsal (machine osname : String) (nasmFound : Bool) : Bool :=
  let can :=
    if machine ∈ ["x86_64", "AMD64"] then nasmFound
    else if machine ∈ ["aarch64", "arm64"] then true
    else false
  if osname = "Darwin" then false else can

/-- Models the resolved ISAL mode (setup.py lines 54 and 79-80): the
requested mode resolved by getDependencyOption, forced to disable when
canBuildIsal is false. -/
def withIsal (machine osname : String) (nasmFound : Bool) (request : Option String) : String :=
  if canBuildIsal machine osname nasmFound then (getDependencyOption "ISAL" request).1
  else "disable"

/-! ## Source Set Assembler (setup.py lines 93-227) -/

/-- Architecture-independent portable C sources of ISA-L, setup.py
lines 93-113 (commented-out entries omitted, as in the source). -/
def isal_base_sources : List String :=
  ["igzip/igzip_inflate.c",
   "igzip/igzip.c",
   "igzip/hufftables_c.c",
   "igzip/encode_df.c",
   "igzip/igzip_icf_base.c",
   "igzip/igzip_icf_body.c",
   "igzip/igzip_base.c",
   "igzip/adler32_base.c",
   "igzip/flatten_ll.c",
   "igzip/huff_codes.c",
   "crc/crc_base.c"]

/-- The x86_64 entry of isal_sources_by_architecture, setup.py lines 115-159. -/
def isal_sources_x86_64 : List String :=
  ["include/reg_sizes.asm",
   "include/multibinary.asm",
   "igzip/igzip_inflate_multibinary.asm",
   "igzip/igzip_decode_block_stateless_01.asm",
   "igzip/igzip_decode_block_stateless_04.asm",
   "igzip/rfc1951_lookup.asm",
   "igzip/stdmac.asm",
   "igzip/igzip_deflate_hash.asm",
   "igzip/igzip_body.asm",
   "igzip/igzip_multibinary.asm",
   "igzip/igzip_update_histogram_01.asm",
   "igzip/igzip_update_histogram_04.asm",
   "igzip/encode_df_04.asm",
   "igzip/encode_df_06.asm",
   "igzip/igzip_finish.asm",
   "igzip/igzip_gen_icf_map_lh1_04.asm",
   "igzip/igzip_gen_icf_map_lh1_06.asm",
   "igzip/igzip_icf_body_h1_gr_bt.asm",
   "igzip/igzip_icf_finish.asm",
   "igzip/igzip_set_long_icf_fg_04.asm",
   "igzip/igzip_set_long_icf_fg_06.asm",
   "igzip/proc_heap.asm",
   "igzip/adler32_avx2_4.asm",
   "igzip/adler32_sse.asm",
   "crc/crc_multibinary.asm",
   "crc/crc32_gzip_refl_by16_10.asm",
   "crc/crc32_gzip_refl_by8_02.asm",
   "crc/crc32_gzip_refl_by8.asm"]

/-- The aarch64 entry of isal_sources_by_architecture, setup.py lines 160-190. -/
def isal_sources_aarch64 : List String :=
  ["crc/aarch64/crc_aarch64_dispatcher.c",
   "igzip/proc_heap_base.c",
   "igzip/aarch64/encode_df.S",
   "igzip/aarch64/gen_icf_map.S",
   "igzip/aarch64/igzip_decode_huffman_code_block_aarch64.S",
   "igzip/aarch64/igzip_deflate_body_aarch64.S",
   "igzip/aarch64/igzip_deflate_finish_aarch64.S",
   "igzip/aarch64/igzip_deflate_hash_aarch64.S",
   "igzip/aarch64/igzip_inflate_multibinary_arm64.S",
   "igzip/aarch64/igzip_isal_adler32_neon.S",
   "igzip/aarch64/igzip_multibinary_aarch64_dispatcher.c",
   "igzip/aarch64/igzip_multibinary_arm64.S",
   "igzip/aarch64/igzip_set_long_icf_fg.S",
   "igzip/aarch64/isal_deflate_icf_body_hash_hist.S",
   "igzip/aarch64/isal_deflate_icf_finish_hash_hist.S",
   "igzip/aarch64/isal_update_histogram.S",
   "crc/aarch64/crc_multibinary_arm.S",
   "crc/aarch64/crc32_gzip_refl_3crc_fold.S",
   "crc/aarch64/crc32_gzip_refl_crc_ext.S",
   "crc/aarch64/crc32_gzip_refl_pmull.S"]

/-- Models the isal_sources_by_architecture dictionary, setup.py lines 114-191. -/
def isal_sources_by_architecture : List (String × List String) :=
  [("x86_64", isal_sources_x86_64), ("aarch64", isal_sources_aarch64)]

/-- Models the accumulation loop of setup.py lines 192-194: the base sources
extended by every table entry whose architecture equals the current one. -/
def isal_sources_combined (arch : Option String) : List String :=
  isal_sources_by_architecture.foldl
    (fun acc p => if arch = some p.1 then acc ++ p.2 else acc) isal_base_sources

/-- Models setup.py line 195: when ISAL resolved to enable, the combined
sources are deduplicated (the Python set call; dedup is membership-faithful
to it) and prefixed with the vendored directory, otherwise the list is
empty. -/
def isal_sources (withIsalResolved : String) (arch : Option String) : List String :=
  if withIsalResolved = "enable" then
    (isal_sources_combined arch).dedup.map (fun s => "external/isa-l/" ++ s)
  else []

/-- Baseline include directories, setup.py lines 197-206. -/
def baseIncludeDirs : List String :=
  [".", "core", "huffman", "rapidgzip", "rapidgzip/chunkdecoding",
   "rapidgzip/huffman", "rapidgzip/gzip", "indexed_bzip2"]

/-- The isal_includes list of setup.py line 207. -/
def isal_includes : List String :=
  ["external/isa-l/include", "external/isa-l/igzip", "external/isa-l"]

/-- Models the include_dirs assembly of setup.py lines 197-215: each
dependency contributes its vendored include directories exactly when it
resolved to enable. -/
def include_dirs (withIsalResolved withZlibResolved withRpmallocResolved
    withCxxoptsResolved : String) : List String :=
  baseIncludeDirs
    ++ (if withIsalResolved = "enable" then isal_includes else [])
    ++ (if withZlibResolved = "enable" then ["external/zlib"] else [])
    ++ (if withRpmallocResolved = "enable" then ["external/rpmalloc/rpmalloc"] else [])
    ++ (if withCxxoptsResolved = "enable" then ["external/cxxopts/include"] else [])

/-- Models rpmalloc_sources, setup.py line 217. -/
def rpmalloc_sources (withRpmallocResolved : String) : List String :=
  if withRpmallocResolved = "enable" then ["external/rpmalloc/rpmalloc/rpmalloc.c"] else []

/-! ## Capability Prober (setup.py lines 234-256)

supportsFlag and hasInclude each write one temporary translation unit and
invoke compiler.compile on it exactly once, returning false when that trial
compile raises CompileError and true otherwise.  The compiler is modelled
by its observable responses to the two probe kinds, and the number of
trial compiles issued during the invocation is threaded as explicit state,
incremented once per compiler.compile call. -/

/-- Observable behaviour of the active compiler under the two probe kinds:
whether the trivial unit compiles with a given extra flag, and whether a
unit including a given system header compiles. -/
structure ProbeCompiler where
  flagWorks : String → Bool
  headerWorks : String → Bool

/-- Models supportsFlag (setup.py lines 234-242): one trial compile of a
trivial unit with the candidate flag; the trial-compile counter advances by
one. -/
def supportsFlag (c : ProbeCompiler) (flag : String) (trialCompiles : Nat) : Bool × Nat :=
  (c.flagWorks flag, trialCompiles + 1)

/-- Models hasInclude (setup.py lines 245-256): one trial compile of a unit
that includes the named header; the trial-compile counter advances by one. -/
def hasInclude (c : ProbeCompiler) (header : String) (trialCompiles : Nat) : Bool × Nat :=
  (c.headerWorks header, trialCompiles + 1)

/-- Trial compiles accumulated by issuing the same flag probe twice in a
row during one invocation, starting from a fresh counter. -/
def twoFlagProbesTrialCompiles (c : ProbeCompiler) (flag : String) : Nat :=
  (supportsFlag c flag (supportsFlag c flag 0).2).2

/-! ## Compile Dispatcher (setup.py lines 260-346) -/

/-- Models str.endswith for a pure suffix on the character data. -/
def endsWithChars (suffix : List Char) (s : String) : Bool :=
  suffix.isSuffixOf s.data

/-- Dialect test of newCompile line 279: source.endswith of dot c. -/
def isCSource (s : String) : Bool := endsWithChars ['.', 'c'] s

/-- Dialect test of newCompile line 280: source.endswith of dot S. -/
def isAsmSource (s : String) : Bool := endsWithChars ['.', 'S'] s

/-- Dialect test of newCompile line 281 (and of the include-copy loop at
line 329): source.endswith of dot asm. -/
def isNasmSource (s : String) : Bool := endsWithChars ['.', 'a', 's', 'm'] s

/-- Models the Python membership test of a dot character in the source
path, newCompile line 285. -/
def containsDot (s : String) : Bool := decide ('.' ∈ s.data)

/-- Characters after the last dot of the path: models
source.rsplit with separator dot and maxsplit one, index one
(newCompile line 285). -/
def extAfterLastDot (s : String) : List Char :=
  (s.data.reverse.takeWhile (fun c => c != '.')).reverse

/-- Dialect test of newCompile lines 282-286: the path contains a dot and
the part after the last dot is none of c, S, asm. -/
def isCppSource (s : String) : Bool :=
  containsDot s && decide (extAfterLastDot s ∉ [['c'], ['S'], ['a', 's', 'm']])

/-- Observable invocations performed by newCompile, in order: batch
compiles through the intercepted host compiler, the copy of an assembly
include file into the current working directory, the macro-assembler batch
compile, and the per-file native-assembly spawn. -/
inductive BuildEvent where
  | compileCpp (sources : List String) (extraPostargs : Option (List String))
  | compileC (sources : List String) (extraPostargs : Option (List String))
  | copyAsmInclude (dir fileName : String)
  | compileNasm (sources : List String) (includeDirs : List String)
  | spawnAsm (source : String) (args : List String)
deriving DecidableEq

/-- True exactly on the macro-assembler batch invocation event. -/
def isNasmInvocation : BuildEvent → Bool
  | BuildEvent.compileNasm _ _ => true
  | _ => false

/-- Abstract object-file naming of the host compiler
(compiler.object_filenames); only injectively tagging the source matters
for the claims. -/
def objectFileName (source : String) : String := source ++ ".o"

/-- The C++-only flags filtered out before the C batch, newCompile
lines 294-299. -/
def cppCompileArgs : List String :=
  ["-fconstexpr-ops-limit=99000100", "-fconstexpr-steps=99000100", "-std=c++17", "/std:c++17"]

/-- Models the stripping of C++-only flags from extra_postargs (newCompile
lines 300-301): only applied when the keyword argument is present. -/
def stripCppArgs (extraPostargs : Option (List String)) : Option (List String) :=
  extraPostargs.map (fun l => l.filter (fun x => decide (x ∉ cppCompileArgs)))

/-- Models the nasmCompiler selection of setup.py lines 267-276: no
macro-assembler backend is located when ISAL resolved to disable or the
architecture is not x86_64 (on win32 and elsewhere a backend object is
constructed, which this model only records as located). -/
def nasmCompilerLocated (withIsalResolved : String) (arch : Option String) : Bool :=
  if withIsalResolved = "disable" ∨ arch ≠ some "x86_64" then false else true

/-- Inputs of one newCompile call: the source list, the extra_postargs
keyword argument when present, the include_dirs keyword argument (empty
when absent, as with kwargs.get), and the directory listings returned by
os.listdir. -/
structure CompileInputs where
  sources : List String
  extraPostargs : Option (List String)
  includeDirs : List String
  listing : String → List String

/-- Models newCompile (setup.py lines 278-342).  Sources are classified by
suffix; the C++ batch runs first with the unmodified arguments; the
C++-only flags are then stripped and the C batch runs; when macro-assembler
sources exist and a backend was located, every assembly include file of
every isal include directory is copied into the working directory and the
macro-assembler batch runs with the isal include directories; finally each
native-assembly source is compiled by an explicit spawned command.  The
returned pair is the accumulated object list and the event trace. -/
def newCompile (withIsalResolved : String) (arch : Option String) (inp : CompileInputs) :
    List String × List BuildEvent :=
  let cSources := inp.sources.filter isCSource
  let asmSources := inp.sources.filter isAsmSource
  let nasmSources := inp.sources.filter isNasmSource
  let cppSources := inp.sources.filter isCppSource
  let cppObjects := if cppSources.isEmpty then [] else cppSources.map objectFileName
  let cppEvents : List BuildEvent :=
    if cppSources.isEmpty then [] else [BuildEvent.compileCpp cppSources inp.extraPostargs]
  let strippedArgs := stripCppArgs inp.extraPostargs
  let cObjects := if cSources.isEmpty then [] else cSources.map objectFileName
  let cEvents : List BuildEvent :=
    if cSources.isEmpty then [] else [BuildEvent.compileC cSources strippedArgs]
  let nasmActive := !nasmSources.isEmpty && nasmCompilerLocated withIsalResolved arch
  let copyEvents : List BuildEvent :=
    isal_includes.flatMap (fun dir =>
      ((inp.listing dir).filter isNasmSource).map (fun f => BuildEvent.copyAsmInclude dir f))
  let nasmEvents : List BuildEvent :=
    if nasmActive then copyEvents ++ [BuildEvent.compileNasm nasmSources isal_includes] else []
  let nasmObjects := if nasmActive then nasmSources.map objectFileName else []
  let asmExtraArgs :=
    ["-D__ASSEMBLY__", "-march=armv8-a"] ++ inp.includeDirs.flatMap (fun p => ["-I", p])
  let asmEvents : List BuildEvent :=
    if asmSources.isEmpty then []
    else asmSources.map (fun src => BuildEvent.spawnAsm src asmExtraArgs)
  let asmObjects := if asmSources.isEmpty then [] else asmSources.map objectFileName
  (cppObjects ++ cObjects ++ nasmObjects ++ asmObjects,
   cppEvents ++ cEvents ++ nasmEvents ++ asmEvents)

/-! ## Flag Composer (setup.py lines 348-429) -/

/-- One per-extension flag-composition context: the compiler vendor
(compiler_type), the resolved optional dependencies, the platform
identification, and the outcomes of the capability probes actually issued
by build_extensions. -/
structure FlagConfig where
  vendor : String
  withRpmallocResolved : String
  withIsalResolved : String
  osSystem : String
  machine : String
  sysPlatform : String
  fltoAuto : Bool
  flto : Bool
  fortifySource : Bool
  constexprOpsLimit : Bool
  constexprStepsLimit : Bool
  macosxVersionMin : Bool
  cfProtection : Bool
  unistdH : Bool

/-- Models the extra_compile_args composition of build_extensions
(setup.py lines 348-429): the baseline list, the probed link-time
optimization and fortify flags, one define per not-disabled optional
dependency, the Windows MS_WIN64 define, the vendor branch (mingw32 leaves
compile arguments unchanged, msvc rebuilds the list from scratch, the
default branch appends the probed constant-expression limits, platform
defines and hardening flags), and finally the probed unistd define. -/
def composeExtraCompileArgs (cfg : FlagConfig) : List String :=
  let args := ["-std=c++17", "-O3", "-DNDEBUG", "-DWITH_PYTHON_SUPPORT",
               "-D_LARGEFILE64_SOURCE=1", "-D_GLIBCXX_ASSERTIONS"]
  let args := args ++ (if cfg.fltoAuto then ["-flto=auto"]
                       else if cfg.flto then ["-flto"] else [])
  let args := args ++ (if cfg.fortifySource then ["-D_FORTIFY_SOURCE=2"] else [])
  let args := args ++ (if cfg.withRpmallocResolved ≠ "disable" then ["-DWITH_RPMALLOC"] else [])
  let args := args ++ (if cfg.withIsalResolved ≠ "disable" then ["-DWITH_ISAL"] else [])
  let args := args ++ (if cfg.osSystem = "Windows" ∧ endsWithChars ['6', '4'] cfg.machine = true
                       then ["-DMS_WIN64"] else [])
  let args :=
    if cfg.vendor = "mingw32" then args
    else if cfg.vendor = "msvc" then
      ["/std:c++17", "/O2", "/DNDEBUG", "/DWITH_PYTHON_SUPPORT", "/constexpr:steps99000100"]
        ++ (if cfg.withRpmallocResolved ≠ "disable" then ["/DWITH_RPMALLOC"] else [])
        ++ (if cfg.withIsalResolved ≠ "disable" then ["/DWITH_ISAL"] else [])
    else
      args
        ++ (if cfg.constexprOpsLimit then ["-fconstexpr-ops-limit=99000100"]
            else if cfg.constexprStepsLimit then ["-fconstexpr-steps=99000100"] else [])
        ++ (if cfg.sysPlatform = "linux" then ["-D_GNU_SOURCE"] else [])
        ++ (if ['d', 'a', 'r', 'w', 'i', 'n'].isPrefixOf cfg.sysPlatform.data = true ∧
               cfg.macosxVersionMin = true
            then ["-mmacosx-version-min=13.0"] else [])
        ++ ["-fstack-protector-strong"]
        ++ (if cfg.cfProtection then ["-fcf-protection=full"] else [])
  args ++ (if cfg.unistdH then ["-DZ_HAVE_UNISTD_H"] else [])

/-- Whether an argument list defines the given preprocessor name, in either
the Unix spelling or the Windows spelling. -/
def hasDefine (args : List String) (name : String) : Bool :=
  decide (("-D" ++ name) ∈ args ∨ ("/D" ++ name) ∈ args)

/-! ## Helper lemmas on the suffix classification -/

theorem dropWhile_cons_head_false {α : Type} (p : α → Bool) :
    ∀ (r : List α) (c : α) (t : List α), r.dropWhile p = c :: t → p c = false := by
  intro r
  induction r with
  | nil => intro c t h; simp at h
  | cons a as ih =>
    intro c t h
    rw [List.dropWhile_cons] at h
    by_cases hp : p a = true
    · rw [if_pos hp] at h
      exact ih c t h
    · rw [if_neg hp] at h
      obtain ⟨rfl, rfl⟩ := List.cons.inj h
      simpa using hp

theorem prefix_dot_iff_takeWhile (r x : List Char) (hx : '.' ∉ x) (hr : '.' ∈ r) :
    x ++ ['.'] <+: r ↔ r.takeWhile (fun c => c != '.') = x := by
  constructor
  · rintro ⟨t, rfl⟩
    rw [List.append_assoc, List.singleton_append,
      List.takeWhile_append_of_pos ?_]
    · simp
    · intro a ha
      simp only [bne_iff_ne, ne_eq]
      intro h
      exact hx (h ▸ ha)
  · intro h
    have hd := List.takeWhile_append_dropWhile (l := r) (p := fun c => c != '.')
    have hne : r.dropWhile (fun c => c != '.') ≠ [] := by
      intro h0
      rw [List.dropWhile_eq_nil_iff] at h0
      simpa using h0 '.' hr
    obtain ⟨c, t, hct⟩ := List.exists_cons_of_ne_nil hne
    have hc : (c != '.') = false := dropWhile_cons_head_false _ r c t hct
    have hc2 : c = '.' := by simpa using hc
    refine ⟨t, ?_⟩
    rw [← hd, h, hct, hc2]
    simp


theorem endsWithChars_dot_iff_ext (s : String) (ext : List Char) (hx : '.' ∉ ext)
    (h : '.' ∈ s.data) :
    endsWithChars ('.' :: ext) s = true ↔ extAfterLastDot s = ext := by
  rw [endsWithChars, List.isSuffixOf_iff_suffix, ← List.reverse_prefix, List.reverse_cons,
    prefix_dot_iff_takeWhile _ _ (by simpa using hx) (by simpa using h), extAfterLastDot]
  constructor
  · intro hh
    rw [hh, List.reverse_reverse]
  · intro hh
    rw [← hh, List.reverse_reverse]

theorem dot_of_endsWithChars (s : String) (ext : List Char)
    (h : endsWithChars ('.' :: ext) s = true) : '.' ∈ s.data := by
  rw [endsWithChars, List.isSuffixOf_iff_suffix] at h
  exact h.mem (List.mem_cons_self _ _)

theorem isCSource_iff_ext (s : String) (h : containsDot s = true) :
    isCSource s = true ↔ extAfterLastDot s = ['c'] := by
  have hd : '.' ∈ s.data := by simpa [containsDot] using h
  exact endsWithChars_dot_iff_ext s ['c'] (by decide) hd

theorem isAsmSource_iff_ext (s : String) (h : containsDot s = true) :
    isAsmSource s = true ↔ extAfterLastDot s = ['S'] := by
  have hd : '.' ∈ s.data := by simpa [containsDot] using h
  exact endsWithChars_dot_iff_ext s ['S'] (by decide) hd

theorem isNasmSource_iff_ext (s : String) (h : containsDot s = true) :
    isNasmSource s = true ↔ extAfterLastDot s = ['a', 's', 'm'] := by
  have hd : '.' ∈ s.data := by simpa [containsDot] using h
  exact endsWithChars_dot_iff_ext s ['a', 's', 'm'] (by decide) hd

theorem containsDot_of_isCSource (s : String) (h : isCSource s = true) :
    containsDot s = true := by
  simpa [containsDot] using dot_of_endsWithChars s ['c'] h

theorem containsDot_of_isAsmSource (s : String) (h : isAsmSource s = true) :
    containsDot s = true := by
  simpa [containsDot] using dot_of_endsWithChars s ['S'] h

theorem containsDot_of_isNasmSource (s : String) (h : isNasmSource s = true) :
    containsDot s = true := by
  simpa [containsDot] using dot_of_endsWithChars s ['a', 's', 'm'] h

theorem isNasmSource_false_of_isCSource (s : String) (h : isCSource s = true) :
    isNasmSource s = false := by
  have hd := containsDot_of_isCSource s h
  rw [isCSource_iff_ext s hd] at h
  by_contra hn
  rw [Bool.not_eq_false, isNasmSource_iff_ext s hd] at hn
  rw [h] at hn
  exact absurd hn (by decide)

theorem isNasmSource_false_of_isAsmSource (s : String) (h : isAsmSource s = true) :
    isNasmSource s = false := by
  have hd := containsDot_of_isAsmSource s h
  rw [isAsmSource_iff_ext s hd] at h
  by_contra hn
  rw [Bool.not_eq_false, isNasmSource_iff_ext s hd] at hn
  rw [h] at hn
  exact absurd hn (by decide)

theorem isNasmSource_false_of_isCppSource (s : String) (h : isCppSource s = true) :
    isNasmSource s = false := by
  rw [isCppSource, Bool.and_eq_true, decide_eq_true_iff] at h
  obtain ⟨hd, hne⟩ := h
  by_contra hn
  rw [Bool.not_eq_false, isNasmSource_iff_ext s hd] at hn
  exact hne (by simp [hn])

/-! ## C1: dialect classification -/

/-- C1 counterexample: the claim says every path not ending in a dialect
suffix is assigned to the C++ batch, so that no source is left unassigned;
but the C++ test of newCompile (setup.py line 285) requires a dot in the
path, so the dotless path Makefile satisfies none of the four batch
predicates and is assigned to no batch at all. -/
theorem dialect_classification_cex :
    isCSource "Makefile" = false ∧ isNasmSource "Makefile" = false ∧
    isAsmSource "Makefile" = false ∧ isCppSource "Makefile" = false := by
  decide

/-- C1 amended: dialect classification is total and pure over source paths
that contain a dot: such a path satisfies exactly one of the four batch
predicates of newCompile (setup.py lines 279-286), namely the C test for
suffix dot c, the MacroAssembly test for suffix dot asm, the
NativeAssembly test for suffix dot S, and the C++ test otherwise; a path
without a dot satisfies none of them. -/
theorem dialect_classification_of_dot (s : String) (h : containsDot s = true) :
    [isCSource s, isNasmSource s, isAsmSource s, isCppSource s].count true = 1 := by
  by_cases h1 : extAfterLastDot s = ['c']
  · have b1 : isCSource s = true := (isCSource_iff_ext s h).mpr h1
    have b2 : isNasmSource s = false := by
      rw [Bool.eq_false_iff]
      intro hb
      rw [isNasmSource_iff_ext s h, h1] at hb
      exact absurd hb (by decide)
    have b3 : isAsmSource s = false := by
      rw [Bool.eq_false_iff]
      intro hb
      rw [isAsmSource_iff_ext s h, h1] at hb
      exact absurd hb (by decide)
    have b4 : isCppSource s = false := by simp [isCppSource, h, h1]
    rw [b1, b2, b3, b4]
    decide
  · by_cases h2 : extAfterLastDot s = ['S']
    · have b1 : isCSource s = false := by
        rw [Bool.eq_false_iff]
        intro hb
        rw [isCSource_iff_ext s h, h2] at hb
        exact absurd hb (by decide)
      have b2 : isNasmSource s = false := by
        rw [Bool.eq_false_iff]
        intro hb
        rw [isNasmSource_iff_ext s h, h2] at hb
        exact absurd hb (by decide)
      have b3 : isAsmSource s = true := (isAsmSource_iff_ext s h).mpr h2
      have b4 : isCppSource s = false := by simp [isCppSource, h, h2]
      rw [b1, b2, b3, b4]
      decide
    · by_cases h3 : extAfterLastDot s = ['a', 's', 'm']
      · have b1 : isCSource s = false := by
          rw [Bool.eq_false_iff]
          intro hb
          rw [isCSource_iff_ext s h, h3] at hb
          exact absurd hb (by decide)
        have b2 : isNasmSource s = true := (isNasmSource_iff_ext s h).mpr h3
        have b3 : isAsmSource s = false := by
          rw [Bool.eq_false_iff]
          intro hb
          rw [isAsmSource_iff_ext s h, h3] at hb
          exact absurd hb (by decide)
        have b4 : isCppSource s = false := by simp [isCppSource, h, h3]
        rw [b1, b2, b3, b4]
        decide
      · have b1 : isCSource s = false := by
          rw [Bool.eq_false_iff]
          intro hb
          exact h1 ((isCSource_iff_ext s h).mp hb)
        have b2 : isNasmSource s = false := by
          rw [Bool.eq_false_iff]
          intro hb
          exact h3 ((isNasmSource_iff_ext s h).mp hb)
        have b3 : isAsmSource s = false := by
          rw [Bool.eq_false_iff]
          intro hb
          exact h2 ((isAsmSource_iff_ext s h).mp hb)
        have b4 : isCppSource s = true := by simp [isCppSource, h, h1, h2, h3]
        rw [b1, b2, b3, b4]
        decide

/-- C1 witness: the amended classification theorem applied to a concrete
dotted path. -/
theorem dialect_classification_of_dot_witness :
    [isCSource "rapidgzip.pyx", isNasmSource "rapidgzip.pyx", isAsmSource "rapidgzip.pyx",
     isCppSource "rapidgzip.pyx"].count true = 1 :=
  dialect_classification_of_dot "rapidgzip.pyx" (by decide)

/-! ## C2: dependency mode resolution and the required cxxopts dependency -/

/-- C2: for every dependency, a requested mode outside the valid set
resolves to disable with a recorded warning, an absent request defaults to
enable, and the required cxxopts dependency never resolves to disable: a
disable request, and likewise an invalid request (which first coerces to
disable), is overridden to enable with a warning. -/
theorem dependency_option_resolution (key s : String) (r : Option String)
    (hs : s ∉ validValues) :
    (getDependencyOption key (some s)).1 = "disable" ∧
    (getDependencyOption key (some s)).2 ≠ [] ∧
    (getDependencyOption key none).1 = "enable" ∧
    (withCxxopts r).1 ≠ "disable" ∧
    (withCxxopts (some "disable")).1 = "enable" ∧
    (withCxxopts (some "disable")).2 ≠ [] ∧
    (withCxxopts (some s)).1 = "enable" ∧
    (withCxxopts (some s)).2 ≠ [] := by
  have hs1 : s ≠ "enable" := fun hh => hs (by rw [hh]; decide)
  have hs2 : s ≠ "disable" := fun hh => hs (by rw [hh]; decide)
  have hs3 : s ≠ "system" := fun hh => hs (by rw [hh]; decide)
  refine ⟨?_, ?_, ?_, ?_, ?_, ?_, ?_, ?_⟩
  · simp [getDependencyOption, hs1, hs3]
  · simp [getDependencyOption, validValues, hs1, hs2, hs3]
  · simp [getDependencyOption]
  · rcases r with _ | v
    · simp [withCxxopts, getDependencyOption]
    · by_cases hv1 : v = "system"
      · simp [withCxxopts, getDependencyOption, hv1]
      · by_cases hv2 : v = "enable"
        · simp [withCxxopts, getDependencyOption, hv1, hv2]
        · simp [withCxxopts, getDependencyOption, hv1, hv2]
  · simp [withCxxopts, getDependencyOption]
  · simp [withCxxopts, getDependencyOption]
  · simp [withCxxopts, getDependencyOption, hs1, hs3]
  · simp [withCxxopts, getDependencyOption, validValues, hs1, hs2, hs3]

/-- C2 witness: the resolution theorem applied to the concrete invalid
request value maybe. -/
theorem dependency_option_resolution_witness :
    (getDependencyOption "RAPIDGZIP_BUILD_ZLIB" (some "maybe")).1 = "disable" ∧
    (getDependencyOption "RAPIDGZIP_BUILD_ZLIB" (some "maybe")).2 ≠ [] ∧
    (getDependencyOption "RAPIDGZIP_BUILD_ZLIB" none).1 = "enable" ∧
    (withCxxopts (some "disable")).1 ≠ "disable" ∧
    (withCxxopts (some "disable")).1 = "enable" ∧
    (withCxxopts (some "disable")).2 ≠ [] ∧
    (withCxxopts (some "maybe")).1 = "enable" ∧
    (withCxxopts (some "maybe")).2 ≠ [] :=
  dependency_option_resolution "RAPIDGZIP_BUILD_ZLIB" "maybe" (some "disable") (by decide)

/-! ## C3: host-capability gating of the ISA-L accelerator -/

/-- C3: the accelerator dependency resolves to disable regardless of the
requested mode whenever the target architecture is outside the supported
64-bit set, or the architecture is in the x86_64 family and nasm is not
discoverable, or the target OS is Darwin; on the aarch64 family off Darwin
no assembler discovery is required and the result is exactly the resolved
requested mode, independent of nasm discovery. -/
theorem isal_capability_gating (machine osname : String) (nasmFound : Bool)
    (r : Option String) :
    (architecture machine = none → withIsal machine osname nasmFound r = "disable") ∧
    (machine ∈ ["x86_64", "AMD64"] → nasmFound = false →
      withIsal machine osname nasmFound r = "disable") ∧
    (osname = "Darwin" → withIsal machine osname nasmFound r = "disable") ∧
    (machine ∈ ["aarch64", "arm64"] → osname ≠ "Darwin" →
      withIsal machine osname nasmFound r = (getDependencyOption "ISAL" r).1) := by
  refine ⟨?_, ?_, ?_, ?_⟩
  · intro h
    by_cases h1 : machine ∈ ["x86_64", "AMD64"]
    · simp [architecture, h1] at h
    · by_cases h2 : machine ∈ ["aarch64", "arm64"]
      · simp [architecture, h1, h2] at h
      · simp [withIsal, canBuildIsal, h1, h2]
  · intro h1 h2
    simp [withIsal, canBuildIsal, h1, h2]
  · intro h
    simp [withIsal, canBuildIsal, h]
  · intro h1 h2
    have hne : machine ∉ ["x86_64", "AMD64"] := by
      simp only [List.mem_cons, List.not_mem_nil, or_false] at h1 ⊢
      rcases h1 with rfl | rfl <;> decide
    simp [withIsal, canBuildIsal, hne, h1, h2]

/-- C3 witness: the gating theorem applied at concrete hosts, one per
forcing condition, and at an aarch64 host where the result ignores nasm
discovery. -/
theorem isal_capability_gating_witness :
    withIsal "riscv64" "Linux" true (some "enable") = "disable" ∧
    withIsal "x86_64" "Linux" false (some "enable") = "disable" ∧
    withIsal "arm64" "Darwin" true (some "enable") = "disable" ∧
    withIsal "aarch64" "Linux" false (some "enable") =
      (getDependencyOption "ISAL" (some "enable")).1 :=
  ⟨(isal_capability_gating "riscv64" "Linux" true (some "enable")).1 (by decide),
   (isal_capability_gating "x86_64" "Linux" false (some "enable")).2.1 (by decide) rfl,
   (isal_capability_gating "arm64" "Darwin" true (some "enable")).2.2.1 rfl,
   (isal_capability_gating "aarch64" "Linux" false (some "enable")).2.2.2 (by decide) (by decide)⟩

/-! ## C4: capability probes are not memoized -/

/-- C4 counterexample: issuing the same flag probe twice during one
invocation performs two trial compiles, not the single one the claim
requires: supportsFlag (setup.py lines 234-242) has no cache, so each call
runs compiler.compile on a fresh temporary unit. -/
theorem probe_memoization_cex :
    twoFlagProbesTrialCompiles ⟨fun _ => true, fun _ => true⟩ "-flto=auto" = 2 ∧
    ¬ twoFlagProbesTrialCompiles ⟨fun _ => true, fun _ => true⟩ "-flto=auto" = 1 :=
  ⟨rfl, by decide⟩

/-- C4 amended: every flag-support or header-availability probe performs
exactly one trial compile, so issuing two probes for the same
(compiler identity, key) pair during one invocation triggers two trial
compiles, one per probe; the result is not memoized, but each probe is a
pure function of (compiler identity, key), so repeated probes return equal
results. -/
theorem probe_trial_compile_count (c : ProbeCompiler) (flag header : String) (n m : Nat) :
    (supportsFlag c flag n).2 = n + 1 ∧
    (hasInclude c header n).2 = n + 1 ∧
    (supportsFlag c flag (supportsFlag c flag n).2).2 = n + 2 ∧
    (supportsFlag c flag n).1 = (supportsFlag c flag m).1 ∧
    (hasInclude c header n).1 = (hasInclude c header m).1 :=
  ⟨rfl, rfl, rfl, rfl, rfl⟩

/-! ## C5: C++-only flags are stripped before the C batch -/

/-- C5: whenever the dispatcher invokes the C batch, the extra argument
list it passes contains no flag from the C++-only list (the language
standard flags and the constant-expression limit flags of setup.py
lines 294-299), whatever arguments were passed in for the C++ batch. -/
theorem c_batch_strips_cpp_only_flags (w : String) (arch : Option String)
    (inp : CompileInputs) (cs : List String) (args : Option (List String))
    (f : String) (l : List String)
    (hev : BuildEvent.compileC cs args ∈ (newCompile w arch inp).2)
    (hf : f ∈ cppCompileArgs) (hl : args = some l) : f ∉ l := by
  simp [newCompile, List.mem_append, List.mem_flatMap, stripCppArgs] at hev
  obtain ⟨-, -, hargs⟩ := hev
  rw [hl] at hargs
  rcases hx : inp.extraPostargs with _ | l0
  · rw [hx] at hargs
    simp at hargs
  · rw [hx] at hargs
    simp only [Option.map_some', Option.some.injEq] at hargs
    intro hfl
    rw [hargs] at hfl
    have h2 := (List.mem_filter.mp hfl).2
    simp [hf] at h2

/-- C5 witness: the stripping theorem applied to a dispatch whose C++
batch received the C++-only standard flag; the composed C arguments do not
contain it. -/
theorem c_batch_strips_cpp_only_flags_witness :
    "-std=c++17" ∈ cppCompileArgs ∧
    BuildEvent.compileC ["inflate.c"] (some ["-O3"]) ∈
      (newCompile "enable" (some "x86_64")
        ⟨["inflate.c"], some ["-std=c++17", "-O3"], [], fun _ => []⟩).2 ∧
    "-std=c++17" ∉ (["-O3"] : List String) := by
  refine ⟨by decide, by decide, ?_⟩
  exact c_batch_strips_cpp_only_flags "enable" (some "x86_64")
    ⟨["inflate.c"], some ["-std=c++17", "-O3"], [], fun _ => []⟩
    ["inflate.c"] (some ["-O3"]) "-std=c++17" ["-O3"]
    (by decide) (by decide) rfl

/-! ## C6: architecture gating of the assembled accelerator sources -/

theorem isal_base_disjoint :
    ∀ e ∈ isal_base_sources, e ∉ isal_sources_x86_64 ∧ e ∉ isal_sources_aarch64 := by
  decide

theorem isal_x86_aarch64_disjoint :
    ∀ e ∈ isal_sources_x86_64, e ∉ isal_sources_aarch64 := by
  decide

/-- C6: every entry of the assembled accelerator source list is a vendored
path whose stem comes either from the architecture-independent base list
or from the table entry matching the current target architecture; a stem
belonging to any architecture table entry forces that entry to be the
current architecture (so entries of other architectures never appear); and
any member at all forces the accelerator to have resolved to enable (for
any other resolved mode the list is empty). -/
theorem isal_sources_arch_gating (w : String) (arch : Option String) (s : String)
    (h : s ∈ isal_sources w arch) :
    w = "enable" ∧
    ∃ e, s = "external/isa-l/" ++ e ∧
      (e ∈ isal_base_sources ∨
        ∃ p ∈ isal_sources_by_architecture, arch = some p.1 ∧ e ∈ p.2) ∧
      (∀ p ∈ isal_sources_by_architecture, e ∈ p.2 → arch = some p.1) := by
  by_cases hw : w = "enable"
  · refine ⟨hw, ?_⟩
    rw [isal_sources, if_pos hw] at h
    obtain ⟨e, he, rfl⟩ := List.mem_map.mp h
    rw [List.mem_dedup] at he
    simp only [isal_sources_combined, isal_sources_by_architecture, List.foldl_cons,
      List.foldl_nil] at he
    refine ⟨e, rfl, ?_⟩
    by_cases ha1 : arch = some "x86_64"
    · by_cases ha2 : arch = some "aarch64"
      · rw [ha1] at ha2
        exact absurd ha2 (by decide)
      · rw [if_pos ha1, if_neg ha2] at he
        rcases List.mem_append.mp he with hb | hx
        · refine ⟨Or.inl hb, ?_⟩
          intro p hp hep
          simp only [isal_sources_by_architecture, List.mem_cons, List.not_mem_nil,
            or_false] at hp
          rcases hp with rfl | rfl
          · exact ha1
          · exact absurd hep (isal_base_disjoint e hb).2
        · refine ⟨Or.inr ⟨("x86_64", isal_sources_x86_64), by simp [isal_sources_by_architecture],
            ha1, hx⟩, ?_⟩
          intro p hp hep
          simp only [isal_sources_by_architecture, List.mem_cons, List.not_mem_nil,
            or_false] at hp
          rcases hp with rfl | rfl
          · exact ha1
          · exact absurd hep (isal_x86_aarch64_disjoint e hx)
    · by_cases ha2 : arch = some "aarch64"
      · rw [if_neg ha1, if_pos ha2] at he
        rcases List.mem_append.mp he with hb | hx
        · refine ⟨Or.inl hb, ?_⟩
          intro p hp hep
          simp only [isal_sources_by_architecture, List.mem_cons, List.not_mem_nil,
            or_false] at hp
          rcases hp with rfl | rfl
          · exact absurd hep (isal_base_disjoint e hb).1
          · exact ha2
        · refine ⟨Or.inr ⟨("aarch64", isal_sources_aarch64),
            by simp [isal_sources_by_architecture], ha2, hx⟩, ?_⟩
          intro p hp hep
          simp only [isal_sources_by_architecture, List.mem_cons, List.not_mem_nil,
            or_false] at hp
          rcases hp with rfl | rfl
          · exact absurd ((isal_x86_aarch64_disjoint e hep) hx) id
          · exact ha2
      · rw [if_neg ha1, if_neg ha2] at he
        refine ⟨Or.inl he, ?_⟩
        intro p hp hep
        simp only [isal_sources_by_architecture, List.mem_cons, List.not_mem_nil,
          or_false] at hp
        rcases hp with rfl | rfl
        · exact absurd hep (isal_base_disjoint e he).1
        · exact absurd hep (isal_base_disjoint e he).2
  · rw [isal_sources, if_neg hw] at h
    exact absurd h (List.not_mem_nil s)

/-- C6 witness: the gating theorem applied to a concrete member of the
aarch64 assembly. -/
theorem isal_sources_arch_gating_witness :
    "external/isa-l/igzip/aarch64/encode_df.S" ∈ isal_sources "enable" (some "aarch64") ∧
    ("enable" = "enable" ∧
      ∃ e, "external/isa-l/igzip/aarch64/encode_df.S" = "external/isa-l/" ++ e ∧
        (e ∈ isal_base_sources ∨
          ∃ p ∈ isal_sources_by_architecture, some "aarch64" = some p.1 ∧ e ∈ p.2) ∧
        (∀ p ∈ isal_sources_by_architecture, e ∈ p.2 → some "aarch64" = some p.1)) :=
  ⟨by decide, isal_sources_arch_gating "enable" (some "aarch64")
    "external/isa-l/igzip/aarch64/encode_df.S" (by decide)⟩

/-! ## C7: dependency defines across vendor branches -/

theorem mem_ite_iff {α : Type} (x : α) (c : Prop) [Decidable c] (l₁ l₂ : List α) :
    (x ∈ if c then l₁ else l₂) ↔ (c ∧ x ∈ l₁) ∨ (¬c ∧ x ∈ l₂) := by
  split <;> simp [*]

theorem hasDefine_rpmalloc_iff (cfg : FlagConfig) :
    hasDefine (composeExtraCompileArgs cfg) "WITH_RPMALLOC" = true ↔
    cfg.withRpmallocResolved ≠ "disable" := by
  by_cases hrpm : cfg.withRpmallocResolved = "disable" <;>
    by_cases hm : cfg.vendor = "mingw32" <;>
      by_cases hv : cfg.vendor = "msvc" <;>
        simp [composeExtraCompileArgs, hasDefine, hrpm, hm, hv, List.mem_append, mem_ite_iff]

theorem hasDefine_isal_iff (cfg : FlagConfig) :
    hasDefine (composeExtraCompileArgs cfg) "WITH_ISAL" = true ↔
    cfg.withIsalResolved ≠ "disable" := by
  by_cases hisal : cfg.withIsalResolved = "disable" <;>
    by_cases hm : cfg.vendor = "mingw32" <;>
      by_cases hv : cfg.vendor = "msvc" <;>
        simp [composeExtraCompileArgs, hasDefine, hisal, hm, hv, List.mem_append, mem_ite_iff]

/-- C7: in every vendor branch of the flag composition, including the msvc
branch that rebuilds its argument list from scratch, the WITH_RPMALLOC
define is present exactly when the allocator dependency did not resolve to
disable, and the WITH_ISAL define exactly when the accelerator did not
resolve to disable. -/
theorem dependency_defines_uniform (cfg : FlagConfig) :
    (hasDefine (composeExtraCompileArgs cfg) "WITH_RPMALLOC" = true ↔
      cfg.withRpmallocResolved ≠ "disable") ∧
    (hasDefine (composeExtraCompileArgs cfg) "WITH_ISAL" = true ↔
      cfg.withIsalResolved ≠ "disable") :=
  ⟨hasDefine_rpmalloc_iff cfg, hasDefine_isal_iff cfg⟩

/-- C7 witness: the define theorem applied to a concrete msvc configuration
with the allocator enabled and the accelerator disabled. -/
theorem dependency_defines_uniform_witness :
    hasDefine
      (composeExtraCompileArgs
        ⟨"msvc", "enable", "disable", "Windows", "AMD64", "win32",
         false, false, false, false, false, false, false, false⟩) "WITH_RPMALLOC" = true ∧
    hasDefine
      (composeExtraCompileArgs
        ⟨"msvc", "enable", "disable", "Windows", "AMD64", "win32",
         false, false, false, false, false, false, false, false⟩) "WITH_ISAL" = false :=
  ⟨(dependency_defines_uniform
      ⟨"msvc", "enable", "disable", "Windows", "AMD64", "win32",
       false, false, false, false, false, false, false, false⟩).1.mpr (by decide),
   by
    have h := (dependency_defines_uniform
      ⟨"msvc", "enable", "disable", "Windows", "AMD64", "win32",
       false, false, false, false, false, false, false, false⟩).2
    by_contra hb
    rw [Bool.not_eq_false] at hb
    exact (h.mp hb) rfl⟩

/-! ## C8: assembly includes are copied before the macro-assembler runs -/

theorem copy_mem_takeWhile_aux (A B C D : List BuildEvent) (ev nasmEv : BuildEvent)
    (hA : ∀ e ∈ A, isNasmInvocation e = false)
    (hB : ∀ e ∈ B, isNasmInvocation e = false)
    (hC : ∀ e ∈ C, isNasmInvocation e = false)
    (hnasm : isNasmInvocation nasmEv = true)
    (hev : ev ∈ C) :
    ev ∈ (A ++ (B ++ (C ++ ([nasmEv] ++ D)))).takeWhile (fun e => !isNasmInvocation e) := by
  rw [List.takeWhile_append_of_pos (by intro a ha; simp [hA a ha])]
  rw [List.takeWhile_append_of_pos (by intro a ha; simp [hB a ha])]
  rw [List.takeWhile_append_of_pos (by intro a ha; simp [hC a ha])]
  have h2 : ([nasmEv] ++ D).takeWhile (fun e => !isNasmInvocation e) = [] := by
    rw [List.singleton_append, List.takeWhile_cons]
    simp [hnasm]
  rw [h2]
  simp [hev]

/-- C8: whenever the MacroAssembly batch is dispatched (macro-assembler
sources exist and a backend was located), then for every configured
macro-assembler include directory and every assembly include file listed in
it, a copy of that file into the current working directory appears in the
event trace strictly before the macro-assembler invocation (that is, in the
portion of the trace preceding the first macro-assembler compile event). -/
theorem nasm_includes_copied_before_invocation (w : String) (arch : Option String)
    (inp : CompileInputs) (dir f : String)
    (hn : inp.sources.filter isNasmSource ≠ [])
    (hloc : nasmCompilerLocated w arch = true)
    (hdir : dir ∈ isal_includes) (hf : f ∈ inp.listing dir)
    (hasm : isNasmSource f = true) :
    BuildEvent.compileNasm (inp.sources.filter isNasmSource) isal_includes ∈
      (newCompile w arch inp).2 ∧
    BuildEvent.copyAsmInclude dir f ∈
      ((newCompile w arch inp).2).takeWhile (fun e => !isNasmInvocation e) := by
  have hne : (inp.sources.filter isNasmSource).isEmpty = false :=
    List.isEmpty_eq_false.mpr hn
  constructor
  · simp [newCompile, List.mem_append, hne, hloc]
  · have htr : (newCompile w arch inp).2 =
        (if (inp.sources.filter isCppSource).isEmpty then ([] : List BuildEvent)
         else [BuildEvent.compileCpp (inp.sources.filter isCppSource) inp.extraPostargs]) ++
        ((if (inp.sources.filter isCSource).isEmpty then ([] : List BuildEvent)
          else [BuildEvent.compileC (inp.sources.filter isCSource)
            (stripCppArgs inp.extraPostargs)]) ++
         ((isal_includes.flatMap fun dir2 =>
             ((inp.listing dir2).filter isNasmSource).map fun f2 =>
               BuildEvent.copyAsmInclude dir2 f2) ++
          ([BuildEvent.compileNasm (inp.sources.filter isNasmSource) isal_includes] ++
           (if (inp.sources.filter isAsmSource).isEmpty then ([] : List BuildEvent)
            else (inp.sources.filter isAsmSource).map fun src =>
              BuildEvent.spawnAsm src (["-D__ASSEMBLY__", "-march=armv8-a"] ++
                inp.includeDirs.flatMap fun p => ["-I", p]))))) := by
      simp only [newCompile, hne, hloc, Bool.not_false, Bool.true_and, Bool.and_true, if_true]
      simp [List.append_assoc]
    rw [htr]
    apply copy_mem_takeWhile_aux
    · intro e he
      split at he
      · simp at he
      · simp only [List.mem_singleton] at he
        subst he
        rfl
    · intro e he
      split at he
      · simp at he
      · simp only [List.mem_singleton] at he
        subst he
        rfl
    · intro e he
      obtain ⟨d2, -, he2⟩ := List.mem_flatMap.mp he
      obtain ⟨f2, -, rfl⟩ := List.mem_map.mp he2
      rfl
    · rfl
    · exact List.mem_flatMap.mpr ⟨dir, hdir,
        List.mem_map.mpr ⟨f, List.mem_filter.mpr ⟨hf, hasm⟩, rfl⟩⟩

/-- C8 witness: the copy-before-invocation theorem applied to a concrete
dispatch of one macro-assembler source with one listed assembly include
file. -/
theorem nasm_includes_copied_before_invocation_witness :
    BuildEvent.compileNasm ["igzip/igzip_body.asm"] isal_includes ∈
      (newCompile "enable" (some "x86_64")
        ⟨["igzip/igzip_body.asm"], none, [],
         fun d => if d = "external/isa-l/include" then ["reg_sizes.asm"] else []⟩).2 ∧
    BuildEvent.copyAsmInclude "external/isa-l/include" "reg_sizes.asm" ∈
      ((newCompile "enable" (some "x86_64")
        ⟨["igzip/igzip_body.asm"], none, [],
         fun d => if d = "external/isa-l/include" then ["reg_sizes.asm"] else []⟩).2).takeWhile
        (fun e => !isNasmInvocation e) :=
  nasm_includes_copied_before_invocation "enable" (some "x86_64")
    ⟨["igzip/igzip_body.asm"], none, [],
     fun d => if d = "external/isa-l/include" then ["reg_sizes.asm"] else []⟩
    "external/isa-l/include" "reg_sizes.asm"
    (by decide) (by decide) (by decide) (by decide) (by decide)

/-! ## C9: macro-assembler sources are silently skipped without a backend -/

theorem ite_isEmpty_map {α β : Type} (l : List α) (f : α → β) :
    (if l.isEmpty then [] else l.map f) = l.map f := by
  cases l <;> simp

/-- C9: when no macro-assembler backend was located (the accelerator
resolved to disable or the architecture is not x86_64), a source list
containing MacroAssembly sources is processed without any macro-assembler
invocation appearing in the trace; the returned objects are exactly those
of the C++, C and NativeAssembly batches, none of which stems from a
MacroAssembly source, and the dispatch completes normally (the embedding
is a total function, so no failure path exists). -/
theorem missing_nasm_backend_skips_asm_batch (w : String) (arch : Option String)
    (inp : CompileInputs)
    (hasNasmSources : inp.sources.filter isNasmSource ≠ [])
    (h : w = "disable" ∨ arch ≠ some "x86_64") :
    ((newCompile w arch inp).2).all (fun e => !isNasmInvocation e) = true ∧
    (newCompile w arch inp).1 =
      ((inp.sources.filter isCppSource) ++ (inp.sources.filter isCSource) ++
        (inp.sources.filter isAsmSource)).map objectFileName ∧
    ((inp.sources.filter isCppSource) ++ (inp.sources.filter isCSource) ++
      (inp.sources.filter isAsmSource)).all (fun s => !isNasmSource s) = true := by
  have hloc : nasmCompilerLocated w arch = false := by
    rw [nasmCompilerLocated, if_pos h]
  refine ⟨?_, ?_, ?_⟩
  · rw [List.all_eq_true]
    intro e he
    simp [newCompile, hloc, List.mem_append, mem_ite_iff] at he
    rcases he with ⟨-, rfl⟩ | ⟨-, rfl⟩ | ⟨-, a, -, rfl⟩ <;> rfl
  · simp only [newCompile, hloc, Bool.and_false, if_false, ite_isEmpty_map, List.append_nil]
    simp [List.map_append]
  · rw [List.all_eq_true]
    intro s hs
    simp only [List.mem_append] at hs
    rcases hs with (hs | hs) | hs
    · simp [isNasmSource_false_of_isCppSource s (List.mem_filter.mp hs).2]
    · simp [isNasmSource_false_of_isCSource s (List.mem_filter.mp hs).2]
    · simp [isNasmSource_false_of_isAsmSource s (List.mem_filter.mp hs).2]

/-- C9 witness: the skip theorem applied to a concrete dispatch containing
one C source and one macro-assembler source with the accelerator disabled. -/
theorem missing_nasm_backend_skips_asm_batch_witness :
    ((newCompile "disable" (some "x86_64")
        ⟨["crc32.c", "igzip/igzip_body.asm"], none, [], fun _ => []⟩).2).all
      (fun e => !isNasmInvocation e) = true ∧
    (newCompile "disable" (some "x86_64")
        ⟨["crc32.c", "igzip/igzip_body.asm"], none, [], fun _ => []⟩).1 =
      ((["crc32.c", "igzip/igzip_body.asm"].filter isCppSource) ++
        (["crc32.c", "igzip/igzip_body.asm"].filter isCSource) ++
        (["crc32.c", "igzip/igzip_body.asm"].filter isAsmSource)).map objectFileName ∧
    ((["crc32.c", "igzip/igzip_body.asm"].filter isCppSource) ++
      (["crc32.c", "igzip/igzip_body.asm"].filter isCSource) ++
      (["crc32.c", "igzip/igzip_body.asm"].filter isAsmSource)).all
      (fun s => !isNasmSource s) = true :=
  missing_nasm_backend_skips_asm_batch "disable" (some "x86_64")
    ⟨["crc32.c", "igzip/igzip_body.asm"], none, [], fun _ => []⟩
    (by decide) (Or.inl rfl)

/-! ## C10: system mode excludes bundled sources yet keeps the define -/

/-- C10: a dependency resolved to system is treated asymmetrically: the
bundled accelerator sources and the bundled rpmalloc sources are empty
(inclusion requires exactly enable), the vendored include directories of
both dependencies are absent from the include list, yet both preprocessor
defines are still present in the composed arguments, because define
emission only requires the resolved mode to differ from disable. -/
theorem system_mode_asymmetry (arch : Option String) (z c : String) (cfg : FlagConfig)
    (hIsal : cfg.withIsalResolved = "system")
    (hRpm : cfg.withRpmallocResolved = "system") :
    isal_sources "system" arch = [] ∧
    rpmalloc_sources "system" = [] ∧
    "external/isa-l/include" ∉ include_dirs "system" z "system" c ∧
    "external/isa-l/igzip" ∉ include_dirs "system" z "system" c ∧
    "external/isa-l" ∉ include_dirs "system" z "system" c ∧
    "external/rpmalloc/rpmalloc" ∉ include_dirs "system" z "system" c ∧
    hasDefine (composeExtraCompileArgs cfg) "WITH_ISAL" = true ∧
    hasDefine (composeExtraCompileArgs cfg) "WITH_RPMALLOC" = true := by
  refine ⟨by simp [isal_sources], by simp [rpmalloc_sources], ?_, ?_, ?_, ?_, ?_, ?_⟩
  · simp [include_dirs, baseIncludeDirs, isal_includes, mem_ite_iff, List.mem_append]
  · simp [include_dirs, baseIncludeDirs, isal_includes, mem_ite_iff, List.mem_append]
  · simp [include_dirs, baseIncludeDirs, isal_includes, mem_ite_iff, List.mem_append]
  · simp [include_dirs, baseIncludeDirs, isal_includes, mem_ite_iff, List.mem_append]
  · exact (hasDefine_isal_iff cfg).mpr (by rw [hIsal]; decide)
  · exact (hasDefine_rpmalloc_iff cfg).mpr (by rw [hRpm]; decide)

/-- C10 witness: the asymmetry theorem applied to a concrete configuration
with both dependencies requested from the system. -/
theorem system_mode_asymmetry_witness :
    isal_sources "system" (some "x86_64") = [] ∧
    rpmalloc_sources "system" = [] ∧
    "external/isa-l/include" ∉ include_dirs "system" "enable" "system" "enable" ∧
    "external/isa-l/igzip" ∉ include_dirs "system" "enable" "system" "enable" ∧
    "external/isa-l" ∉ include_dirs "system" "enable" "system" "enable" ∧
    "external/rpmalloc/rpmalloc" ∉ include_dirs "system" "enable" "system" "enable" ∧
    hasDefine
      (composeExtraCompileArgs
        ⟨"unix", "system", "system", "Linux", "x86_64", "linux",
         true, false, true, true, false, false, true, true⟩) "WITH_ISAL" = true ∧
    hasDefine
      (composeExtraCompileArgs
        ⟨"unix", "system", "system", "Linux", "x86_64", "linux",
         true, false, true, true, false, false, true, true⟩) "WITH_RPMALLOC" = true :=
  system_mode_asymmetry (some "x86_64") "enable" "enable"
    ⟨"unix", "system", "system", "Linux", "x86_64", "linux",
     true, false, true, true, false, false, true, true⟩ rfl rfl

end RapidgzipSetup
